import Mathlib

/-!
Verification of the grove worktree engine (shallow embedding).

Each definition below is translated from the Rust source of the repository:

* `src/utils.rs` — duration normalisation/parsing, gitdir stripping;
* `src/commands/add.rs` — `get_worktree_path` (path safety validator);
* `src/git/worktree_manager.rs` — porcelain parsing, merge detection;
* `src/commands/prune.rs` — the prune candidate filter.

Modelling conventions:

* Rust `String`/`&str` values are Lean `String`s; where the Rust code
  indexes by byte offsets the strings involved are searched for ASCII
  patterns, so character indexing coincides with byte indexing at every
  cut point used by the code.
* Subprocess invocations (`git_raw`) are abstracted as a function
  `List String → Except String String` from the argument vector to either
  captured stdout or the trimmed stderr message.
* Filesystem canonicalisation is abstracted as a partial function on
  paths (`Option`-valued): `canonicalize` may fail for paths that do not
  exist, exactly as `std::fs::canonicalize` may.
* Rust `u64` arithmetic in the duration parser goes through `f64`
  multiplication; for the integer-valued components treated here the
  products are far below `2^53`, where `f64` arithmetic is exact, so the
  model computes the exact value in `Nat` (truncated division models the
  `as u64` cast for fractional values).
-/

namespace Grove

/-! ### String helpers (Rust `str` semantics) -/

/-- Index (in characters) of the first occurrence of `pat` in a string,
modelling Rust `str::find` for ASCII patterns (byte = char index at the
returned cut points). -/
def firstOccur (pat : List Char) : List Char → Option Nat
  | [] => if pat.isPrefixOf ([] : List Char) then some 0 else none
  | c :: cs =>
    if pat.isPrefixOf (c :: cs) then some 0
    else (firstOccur pat cs).map (· + 1)

/-- Rust `str::contains` (substring). -/
def strContains (s pat : String) : Bool := (firstOccur pat.data s.data).isSome

/-- Rust string slicing `s[..n]`, at a character cut point. -/
def strTake (s : String) (n : Nat) : String := ⟨s.data.take n⟩

/-- Rust string slicing `s[n..]`, at a character cut point. -/
def strDrop (s : String) (n : Nat) : String := ⟨s.data.drop n⟩

/-- Rust `str::starts_with`. -/
def strStartsWith (s pat : String) : Bool := pat.data.isPrefixOf s.data

/-- Rust `str::to_uppercase`, restricted to the ASCII mapping (every string
this code uppercases is ASCII in the positions that matter). -/
def strUpper (s : String) : String := ⟨s.data.map Char.toUpper⟩

/-- Recursion core of Rust `String::replace(pat, rep)`: replace every
non-overlapping occurrence, scanning left to right. Structural on `fuel`;
every step consumes at least one character, so `fuel = s.length` is always
enough. -/
def replaceAllFuel (pat rep : List Char) : Nat → List Char → List Char
  | _, [] => []
  | 0, s => s
  | fuel + 1, c :: cs =>
    if pat ≠ [] ∧ pat.isPrefixOf (c :: cs) then
      rep ++ replaceAllFuel pat rep fuel (cs.drop (pat.length - 1))
    else
      c :: replaceAllFuel pat rep fuel cs

/-- Rust `String::replace(pat, rep)` on character lists. -/
def replaceAll (pat rep s : List Char) : List Char := replaceAllFuel pat rep s.length s

/-- Rust `String::replace` on `String`s. -/
def strReplace (s pat rep : String) : String := ⟨replaceAll pat.data rep.data s.data⟩

/-- Both-ends whitespace trim on character lists (Rust `str::trim`; Lean's
`Char.isWhitespace` covers the ASCII whitespace the inputs use). -/
def trimChars (l : List Char) : List Char :=
  ((l.dropWhile Char.isWhitespace).reverse.dropWhile Char.isWhitespace).reverse

/-- Rust `str::trim` (structural implementation, so that it reduces). -/
def strTrim (s : String) : String := ⟨trimChars s.data⟩

/-- Split a character list at every occurrence of a separator character. -/
def splitOnChar (sep : Char) : List Char → List (List Char)
  | [] => [[]]
  | c :: cs =>
    if c = sep then [] :: splitOnChar sep cs
    else
      match splitOnChar sep cs with
      | h :: t => (c :: h) :: t
      | [] => [[c]]

/-- Strip one trailing `'\r'`, as Rust `str::lines` does per line. -/
def stripCR (l : List Char) : List Char :=
  if l.getLast? = some '\r' then l.dropLast else l

/-- Rust `str::lines`: split on `'\n'`, drop a final empty piece, strip a
trailing `'\r'` from each line. -/
def rustLines (s : String) : List String :=
  let parts := splitOnChar '\n' s.data
  let parts :=
    match parts.getLast? with
    | some last => if last = [] then parts.dropLast else parts
    | none => parts
  parts.map (fun l => ⟨stripCR l⟩)

/-- Rust `Result::unwrap_or_default` on a `Result<String, E>`. -/
def unwrapOrDefault (r : Except String String) : String :=
  match r with
  | .ok s => s
  | .error _ => ""

/-! ### Duration parsing — `src/utils.rs` -/

-- Duration constants in milliseconds (`src/utils.rs`).
def MS_PER_SECOND : Nat := 1000
def MS_PER_MINUTE : Nat := 60 * MS_PER_SECOND
def MS_PER_HOUR : Nat := 60 * MS_PER_MINUTE
def MS_PER_DAY : Nat := 24 * MS_PER_HOUR
def MS_PER_WEEK : Nat := 7 * MS_PER_DAY
def MS_PER_MONTH : Nat := 30 * MS_PER_DAY
def MS_PER_YEAR : Nat := 365 * MS_PER_DAY

/-- Numeric value of a digit string (the regex guarantees only `0`–`9`). -/
def digitsToNat (ds : List Char) : Nat :=
  ds.foldl (fun acc c => acc * 10 + (c.toNat - '0'.toNat)) 0

/-- Exact value of `(value * const) as u64` for a regex capture
`<intDigits>.<fracDigits>`: the `f64` product is exact for the magnitudes
involved, and the cast truncates. -/
def compMs (intDigits fracDigits : List Char) (unitMs : Nat) : Nat :=
  digitsToNat intDigits * unitMs + digitsToNat fracDigits * unitMs / 10 ^ fracDigits.length

/-- One leftmost match of the component regex `(\d+(?:\.\d+)?)(<unit>)`
starting at the head of `s`: integer digits, fraction digits, the unit
character, and the remainder of the string after the match. -/
def tryCompMatch (units : List Char) (s : List Char) :
    Option (List Char × List Char × Char × List Char) :=
  let ds := s.takeWhile Char.isDigit
  if ds.isEmpty then none
  else
    let s1 := s.dropWhile Char.isDigit
    let (fs, s2) :=
      match s1 with
      | '.' :: rest =>
        let fr := rest.takeWhile Char.isDigit
        if fr.isEmpty then (([] : List Char), s1) else (fr, rest.dropWhile Char.isDigit)
      | _ => (([] : List Char), s1)
    match s2 with
    | u :: rest2 => if units.contains u then some (ds, fs, u, rest2) else none
    | [] => none

/-- Rust regex `captures_iter` of `(\d+(?:\.\d+)?)(<units>)`: successive
leftmost matches. `fuel` bounds the scan; `s.length` always suffices since
every step consumes at least one character. -/
def scanComps (units : List Char) : Nat → List Char → List (List Char × List Char × Char)
  | 0, _ => []
  | _ + 1, [] => []
  | fuel + 1, c :: cs =>
    match tryCompMatch units (c :: cs) with
    | some (ds, fs, u, rest) => (ds, fs, u) :: scanComps units fuel rest
    | none => scanComps units fuel cs

/-- Millisecond weight of a date-part unit (`Y|M|W|D`). -/
def dateUnitMs : Char → Nat
  | 'Y' => MS_PER_YEAR
  | 'M' => MS_PER_MONTH
  | 'W' => MS_PER_WEEK
  | 'D' => MS_PER_DAY
  | _ => 0

/-- Millisecond weight of a time-part unit (`H|M|S`). -/
def timeUnitMs : Char → Nat
  | 'H' => MS_PER_HOUR
  | 'M' => MS_PER_MINUTE
  | 'S' => MS_PER_SECOND
  | _ => 0

/-- Sum the contributions of scanned components under a unit weighting. -/
def sumComps (unitMs : Char → Nat) (comps : List (List Char × List Char × Char)) : Nat :=
  comps.foldl (fun acc t => acc + compMs t.1 t.2.1 (unitMs t.2.2)) 0

/-- `parse_iso8601_duration` (`src/utils.rs`): uppercase, require a leading
`P`, split at the first `T` into date and time parts, and sum component
contributions. -/
def parse_iso8601_duration (iso : String) : Nat :=
  match (strUpper iso).data with
  | 'P' :: remaining =>
    let parts :=
      match firstOccur ['T'] remaining with
      | some idx => (remaining.take idx, remaining.drop (idx + 1))
      | none => (remaining, ([] : List Char))
    sumComps dateUnitMs (scanComps ['Y', 'M', 'W', 'D'] parts.1.length parts.1)
      + sumComps timeUnitMs (scanComps ['H', 'M', 'S'] parts.2.length parts.2)
  | _ => 0

/-- The anchored shorthand regex `^(\d+(?:\.\d+)?)\s*([dDwWMmyYhHsS])$`:
returns the captured value string (digits with optional fraction) and the
unit character when the whole trimmed input matches. -/
def shorthandMatch (s : List Char) : Option (List Char × Char) :=
  let ds := s.takeWhile Char.isDigit
  if ds.isEmpty then none
  else
    let s1 := s.dropWhile Char.isDigit
    let (val, s2) :=
      match s1 with
      | '.' :: rest =>
        let fr := rest.takeWhile Char.isDigit
        if fr.isEmpty then (ds, s1) else (ds ++ '.' :: fr, rest.dropWhile Char.isDigit)
      | _ => (ds, s1)
    match s2.dropWhile Char.isWhitespace with
    | [u] => if "dDwWMmyYhHsS".data.contains u then some (val, u) else none
    | _ => none

/-- ISO unit letter and time-part flag for a shorthand unit character
(`src/utils.rs` `normalize_duration` match arms; uppercase `M` is months,
lowercase `m` is minutes). -/
def shorthandIsoUnit : Char → Option (Char × Bool)
  | 'd' | 'D' => some ('D', false)
  | 'w' | 'W' => some ('W', false)
  | 'M' => some ('M', false)
  | 'y' | 'Y' => some ('Y', false)
  | 'h' | 'H' => some ('H', true)
  | 'm' => some ('M', true)
  | 's' | 'S' => some ('S', true)
  | _ => none

/-- `normalize_duration` (`src/utils.rs`). -/
def normalize_duration (s : String) : String :=
  if s.data = [] ∨ (strTrim s).data = [] then s
  else
    let normalized := strTrim s
    if (strUpper normalized).data.head? = some 'P' then normalized
    else
      match shorthandMatch normalized.data with
      | some (val, u) =>
        match shorthandIsoUnit u with
        | some (isoUnit, isTime) =>
          if isTime then ⟨'P' :: 'T' :: (val ++ [isoUnit])⟩
          else ⟨'P' :: (val ++ [isoUnit])⟩
        | none => normalized
      | none => normalized

/-- `parse_duration` (`src/utils.rs`). -/
def parse_duration (s : String) : Except String Nat :=
  if s.data = [] ∨ (strTrim s).data = [] then
    .error "Duration cannot be empty (use formats like: 30d, 2w, 6M, 1y, 12h, 30m or ISO 8601 like P30D, P1Y, P2W, PT1H)"
  else
    let normalized := normalize_duration s
    let ms := parse_iso8601_duration normalized
    if ms > 0 then .ok ms
    else
      .error ("Invalid duration format: " ++ s ++ " (use formats like: 30d, 2w, 6M, 1y, 12h, 30m or ISO 8601 like P30D, P1Y, P2W, PT1H)")

/-! ### Gitdir stripping — `src/utils.rs` `extract_bare_clone_from_gitdir` -/

/-- `extract_bare_clone_from_gitdir` (`src/utils.rs`): cut at the first
occurrence of `".git/worktrees/"` keeping the `".git"` suffix; fall back to
cutting before the first `"/worktrees/"`; otherwise error. -/
def extract_bare_clone_from_gitdir (gitdir_path : String) : Except String String :=
  match firstOccur ".git/worktrees/".data gitdir_path.data with
  | some idx => .ok (strTake gitdir_path (idx + 4))
  | none =>
    match firstOccur "/worktrees/".data gitdir_path.data with
    | some idx => .ok (strTake gitdir_path idx)
    | none => .error ("Invalid worktree gitdir path: " ++ gitdir_path)

/-! ### Path safety validator — `src/commands/add.rs` `get_worktree_path`

Paths are modelled as lists of components (`RPath`), matching the
component-wise semantics of `std::path::Path` operations on Unix:
`join` appends the (relative) name's components, `starts_with` is
component-prefix. Canonicalisation is an abstract partial function
supplied by a `FileSys` value. -/

/-- A filesystem path as its list of components. -/
abbrev RPath : Type := List String

/-- Components of a relative name string, as `Path::components` yields them
on Unix: split on `/`, dropping empty segments and `.` segments. -/
def nameComponents (name : String) : List String :=
  ((splitOnChar '/' name.data).map (fun l => (⟨l⟩ : String))).filter
    (fun c => c ≠ "" ∧ c ≠ ".")

/-- Abstract filesystem: `canonicalize` resolves a path to its canonical
form, or fails (as `std::fs::canonicalize` does for nonexistent paths). -/
structure FileSys where
  canonicalize : RPath → Option RPath

/-- Rust `Path::is_absolute` for the name string (Unix: has a root). -/
def nameIsAbsolute (name : String) : Bool := strStartsWith name "/"

/-- The reserved-character test of `get_worktree_path`. -/
def hasProhibitedChar (name : String) : Bool :=
  name.data.any (fun c => c = '<' ∨ c = '>' ∨ c = ':' ∨ c = '"' ∨ c = '|' ∨ c = '?' ∨ c = '*')

/-- `get_worktree_path` (`src/commands/add.rs`): reject traversal tokens,
absolute names and reserved characters; join onto the project root;
canonicalize with fallback; require the resolved path to stay under the
resolved root. -/
def get_worktree_path (fs : FileSys) (branch_name : String) (project_root : RPath) :
    Except String RPath :=
  if strContains branch_name ".." ∨ nameIsAbsolute branch_name then
    .error "Invalid branch name: contains path traversal characters"
  else if hasProhibitedChar branch_name then
    .error "Invalid branch name: contains prohibited characters (< > : \x22 | ? *)"
  else
    let worktree_path : RPath := project_root ++ nameComponents branch_name
    let resolved_root : RPath := (fs.canonicalize project_root).getD project_root
    let resolved_path : RPath :=
      match fs.canonicalize worktree_path with
      | some p => p
      | none => resolved_root ++ nameComponents branch_name
    if List.isPrefixOf resolved_root resolved_path then .ok resolved_path
    else .error "Invalid branch name: would create worktree outside project"

/-! ### Porcelain parsing — `src/git/worktree_manager.rs` -/

-- Constants from `src/git/worktree_manager.rs`.
def MAIN_BRANCHES : List String := ["main", "master"]
def DETACHED_HEAD : String := "detached HEAD"

/-- The mutable accumulator of `parse_worktree_lines`. -/
structure PartialWorktree where
  path : Option String
  head : Option String
  branch : Option String
  is_locked : Bool
  is_prunable : Bool
  is_bare : Bool
deriving DecidableEq, Repr

/-- The freshly reset accumulator. -/
def emptyPartial : PartialWorktree :=
  { path := none, head := none, branch := none,
    is_locked := false, is_prunable := false, is_bare := false }

/-- Flush `current` at a block boundary: emitted only when it has a path and
is not flagged bare. -/
def flushPartial (current : PartialWorktree) : List PartialWorktree :=
  if current.path.isSome ∧ ¬current.is_bare then [current] else []

/-- The line loop of `parse_worktree_lines` (`src/git/worktree_manager.rs`),
one iteration per line, emitting records in the order the Rust loop pushes
them. -/
def parseLoop : List String → PartialWorktree → List PartialWorktree
  | [], current => flushPartial current
  | line :: rest, current =>
    if strStartsWith line "worktree " then
      flushPartial current ++
        parseLoop rest { emptyPartial with path := some (strDrop line 9) }
    else if strStartsWith line "HEAD " then
      parseLoop rest { current with head := some (strDrop line 5) }
    else if strStartsWith line "branch " then
      parseLoop rest { current with branch := some (strReplace (strDrop line 7) "refs/heads/" "") }
    else if line = "detached" then
      parseLoop rest { current with branch := some DETACHED_HEAD }
    else if line = "locked" then
      parseLoop rest { current with is_locked := true }
    else if line = "prunable" then
      parseLoop rest { current with is_prunable := true }
    else if line = "bare" then
      parseLoop rest { current with is_bare := true }
    else
      parseLoop rest current

/-- `parse_worktree_lines` (`src/git/worktree_manager.rs`): iterate over
`output.trim().lines()` starting from a fresh accumulator. -/
def parse_worktree_lines (output : String) : List PartialWorktree :=
  parseLoop (rustLines (strTrim output)) emptyPartial

/-! ### Merge detection — `src/git/worktree_manager.rs`

`git_raw` is abstracted as `run : List String → Except String String`
mapping the git argument vector to captured stdout or an error. -/

/-- The argument vector of the three-dot file-level diff in
`is_squash_merged`. -/
def squashDiffArgs (branch base_branch : String) : List String :=
  ["diff", "--name-only", base_branch ++ "..." ++ branch]

/-- The non-empty file names of the three-dot diff (`is_squash_merged`,
first subprocess call; a failed call yields empty output via
`unwrap_or_default`). -/
def squashFiles (run : List String → Except String String)
    (branch base_branch : String) : List String :=
  (rustLines (unwrapOrDefault (run (squashDiffArgs branch base_branch)))).filter
    (fun f => f ≠ "")

/-- The argument vector of the restricted two-rev diff in
`is_squash_merged`. -/
def restrictedDiffArgs (branch base_branch : String) (files : List String) : List String :=
  ["diff", "--name-only", base_branch, branch, "--"] ++ files

/-- `is_squash_merged` (`src/git/worktree_manager.rs`). -/
def is_squash_merged (run : List String → Except String String)
    (branch base_branch : String) : Except String Bool :=
  let files := squashFiles run branch base_branch
  if files = [] then .ok true
  else
    let diff := unwrapOrDefault (run (restrictedDiffArgs branch base_branch files))
    .ok ((strTrim diff).data = [])

/-- Recursion core of Rust `str::trim_start_matches`: repeatedly strip a
leading occurrence of the pattern (structural on `fuel`; `s.length` always
suffices). -/
def trimStartMatchesFuel (pat : List Char) : Nat → List Char → List Char
  | _, [] => []
  | 0, s => s
  | fuel + 1, c :: cs =>
    if pat ≠ [] ∧ pat.isPrefixOf (c :: cs) then
      trimStartMatchesFuel pat fuel (cs.drop (pat.length - 1))
    else c :: cs

/-- Rust `str::trim_start_matches` on character lists. -/
def trimStartMatches (pat s : List Char) : List Char :=
  trimStartMatchesFuel pat s.length s

/-- The per-line cleanup of `is_branch_merged`:
`line.trim().trim_start_matches("* ").trim()`. -/
def mergedLineName (line : String) : String :=
  strTrim ⟨trimStartMatches "* ".data (strTrim line).data⟩

/-- `is_branch_merged` (`src/git/worktree_manager.rs`): consult
`git branch --merged <base>`, then fall back to the squash-merge check. -/
def is_branch_merged (run : List String → Except String String)
    (branch base_branch : String) : Except String Bool :=
  match run ["branch", "--merged", base_branch] with
  | .error e =>
    .error ("Failed to check if branch " ++ branch ++ " is merged: " ++ e)
  | .ok result =>
    let merged_branches :=
      ((rustLines result).map mergedLineName).filter (fun l => l ≠ "")
    if merged_branches.contains branch then .ok true
    else is_squash_merged run branch base_branch

/-! ### Prune candidate selection — `src/commands/prune.rs`

`chrono::DateTime` values are modelled as an integer timeline (the code
only compares them and tests `timestamp() == 0`, the unknown sentinel,
which on this timeline is the value `0`). -/

/-- The enriched worktree row (`src/models.rs`). -/
structure Worktree where
  path : String
  branch : String
  head : String
  created_at : Int
  is_dirty : Bool
  is_locked : Bool
  is_prunable : Bool
  is_main : Bool
deriving DecidableEq, Repr

/-- The per-worktree candidate test of the selection loop in `run`
(`src/commands/prune.rs`): skip main/locked/detached worktrees and the
base branch's own worktree; then either the age test (age mode) or the
merge test (merge mode, where `Ok(false)` and `Err` both mean skip). -/
def pruneKeep (run : List String → Except String String) (base_branch : String)
    (age_threshold_ms : Option Nat) (now : Int) (wt : Worktree) : Bool :=
  if wt.is_main ∨ wt.is_locked ∨ wt.branch = DETACHED_HEAD then false
  else if base_branch ≠ "" ∧ wt.branch = base_branch then false
  else
    match age_threshold_ms with
    | some threshold_ms =>
      let cutoff : Int := now - threshold_ms
      ¬(wt.created_at = 0 ∨ wt.created_at > cutoff)
    | none =>
      match is_branch_merged run wt.branch base_branch with
      | .ok true => true
      | _ => false

/-- The candidate list accumulated by the selection loop in `run`
(`src/commands/prune.rs`): worktrees are visited in listing order and
pushed when they pass `pruneKeep`. -/
def prune_candidates (run : List String → Except String String) (base_branch : String)
    (age_threshold_ms : Option Nat) (now : Int) (worktrees : List Worktree) :
    List Worktree :=
  worktrees.filter (pruneKeep run base_branch age_threshold_ms now)

/-! ## Claim theorems -/

/-- C7: the duration parser maps `"30d"` to `30*24*3600*1000` ms and `"2w"`
to `14*24*3600*1000` ms, rejects the empty string, agrees on `"P1Y"` and
`"1y"`, and uses the fixed constants day = 24h, week = 7d, month = 30d,
year = 365d. -/
theorem C7_duration_examples :
    parse_duration "30d" = .ok (30 * 24 * 3600 * 1000) ∧
    parse_duration "2w" = .ok (14 * 24 * 3600 * 1000) ∧
    (∃ e, parse_duration "" = .error e) ∧
    parse_duration "P1Y" = parse_duration "1y" ∧
    MS_PER_DAY = 24 * MS_PER_HOUR ∧ MS_PER_WEEK = 7 * MS_PER_DAY ∧
    MS_PER_MONTH = 30 * MS_PER_DAY ∧ MS_PER_YEAR = 365 * MS_PER_DAY :=
  ⟨by rfl, by rfl, ⟨_, rfl⟩, by rfl, rfl, rfl, rfl, rfl⟩

/-- C8: an input whose duration evaluates to zero milliseconds is rejected
with an error, and every `Ok` result of `parse_duration` is strictly
positive. -/
theorem C8_positive_duration (s : String) :
    (parse_iso8601_duration (normalize_duration s) = 0 →
      ∃ e, parse_duration s = .error e) ∧
    (∀ v, parse_duration s = .ok v → 0 < v) := by
  constructor
  · intro h0
    unfold parse_duration
    split
    · exact ⟨_, rfl⟩
    · simp only [h0, gt_iff_lt, lt_self_iff_false, if_false]
      exact ⟨_, rfl⟩
  · intro v hv
    unfold parse_duration at hv
    split at hv
    · exact absurd hv (by simp)
    · simp only [gt_iff_lt] at hv
      split at hv
      · rename_i hms
        cases hv
        exact hms
      · exact absurd hv (by simp)

/-- Witness for C8 at `"P0D"` (evaluates to zero, rejected) and `"30d"`
(accepted with a positive value). -/
theorem C8_positive_duration_witness :
    (∃ e, parse_duration "P0D" = .error e) ∧ (0 : Nat) < 2592000000 :=
  ⟨(C8_positive_duration "P0D").1 (by rfl),
   (C8_positive_duration "30d").2 2592000000 (by rfl)⟩

/-- C3: the squash-merge check classifies a branch as merged when the
three-dot file diff lists zero files; otherwise it classifies it as merged
iff the diff of base against branch restricted to exactly those files is
empty. -/
theorem C3_squash_classification (run : List String → Except String String)
    (branch base_branch : String) :
    (squashFiles run branch base_branch = [] →
      is_squash_merged run branch base_branch = .ok true) ∧
    (squashFiles run branch base_branch ≠ [] →
      (is_squash_merged run branch base_branch = .ok true ↔
        (strTrim (unwrapOrDefault
          (run (restrictedDiffArgs branch base_branch
            (squashFiles run branch base_branch))))).data = [])) := by
  constructor
  · intro h
    unfold is_squash_merged
    simp [h]
  · intro h
    unfold is_squash_merged
    simp [h]

/-- Witness for C3: a run with an empty three-dot diff is classified
merged; a run listing one file is classified by the restricted diff. -/
theorem C3_squash_classification_witness :
    is_squash_merged (fun _ => .ok "") "feat" "main" = .ok true ∧
    (is_squash_merged
        (fun args => if args = squashDiffArgs "feat" "main" then .ok "a.txt" else .ok "")
        "feat" "main" = .ok true ↔
      (strTrim (unwrapOrDefault
        ((fun args => if args = squashDiffArgs "feat" "main" then .ok "a.txt" else .ok "")
          (restrictedDiffArgs "feat" "main"
            (squashFiles
              (fun args => if args = squashDiffArgs "feat" "main" then .ok "a.txt" else .ok "")
              "feat" "main"))))).data = []) :=
  ⟨(C3_squash_classification (fun _ => .ok "") "feat" "main").1 (by rfl),
   (C3_squash_classification
      (fun args => if args = squashDiffArgs "feat" "main" then .ok "a.txt" else .ok "")
      "feat" "main").2 (by decide)⟩

/-- `is_squash_merged` always returns an `Ok` value (both subprocess
results go through `unwrap_or_default`). -/
theorem is_squash_merged_isOk (run : List String → Except String String)
    (branch base_branch : String) :
    ∃ b, is_squash_merged run branch base_branch = .ok b := by
  by_cases h : squashFiles run branch base_branch = []
  · exact ⟨true, by unfold is_squash_merged; simp [h]⟩
  · refine ⟨decide ((strTrim (unwrapOrDefault
      (run (restrictedDiffArgs branch base_branch
        (squashFiles run branch base_branch))))).data = []), ?_⟩
    unfold is_squash_merged
    simp only [h, if_false]

/-- When `branch --merged` succeeds, `is_branch_merged` returns an `Ok`
value (both arms of its final decision are `Ok`). -/
theorem is_branch_merged_ok_of_run_ok (run : List String → Except String String)
    (branch base_branch result : String)
    (hr : run ["branch", "--merged", base_branch] = .ok result) :
    ∃ b, is_branch_merged run branch base_branch = .ok b := by
  by_cases hc : (((rustLines result).map mergedLineName).filter
      (fun l => l ≠ "")).contains branch = true
  · refine ⟨true, ?_⟩
    unfold is_branch_merged
    rw [hr]
    dsimp only
    rw [if_pos hc]
  · obtain ⟨b, hb⟩ := is_squash_merged_isOk run branch base_branch
    refine ⟨b, ?_⟩
    unfold is_branch_merged
    rw [hr]
    dsimp only
    rw [if_neg hc]
    exact hb

/-- C10: the squash-merge check never returns an error — a failed diff
subprocess is treated as empty output, so a failed three-dot diff makes the
branch count as merged — while a failure of `branch --merged` is the one
path that surfaces as an error from `is_branch_merged`. -/
theorem C10_merge_error_policy (run : List String → Except String String)
    (branch base_branch : String) :
    (∃ b, is_squash_merged run branch base_branch = .ok b) ∧
    (∀ e, run (squashDiffArgs branch base_branch) = .error e →
      is_squash_merged run branch base_branch = .ok true) ∧
    (∀ e, run ["branch", "--merged", base_branch] = .error e →
      is_branch_merged run branch base_branch =
        .error ("Failed to check if branch " ++ branch ++ " is merged: " ++ e)) ∧
    (∀ e, is_branch_merged run branch base_branch = .error e →
      ∃ e0, run ["branch", "--merged", base_branch] = .error e0) := by
  refine ⟨is_squash_merged_isOk run branch base_branch, ?_, ?_, ?_⟩
  · intro e he
    have hf : squashFiles run branch base_branch = [] := by
      unfold squashFiles
      rw [he]
      rfl
    unfold is_squash_merged
    simp [hf]
  · intro e he
    unfold is_branch_merged
    rw [he]
  · intro e he
    cases hr : run ["branch", "--merged", base_branch] with
    | error e0 => exact ⟨e0, rfl⟩
    | ok result =>
      obtain ⟨b, hb⟩ := is_branch_merged_ok_of_run_ok run branch base_branch result hr
      rw [hb] at he
      exact absurd he (by simp)

/-- Witness for C10 with a run whose every subprocess call fails. -/
theorem C10_merge_error_policy_witness :
    is_squash_merged (fun _ => .error "boom") "feat" "main" = .ok true ∧
    is_branch_merged (fun _ => .error "boom") "feat" "main" =
      .error "Failed to check if branch feat is merged: boom" ∧
    (∃ e0, (fun _ => (.error "boom" : Except String String)) ["branch", "--merged", "main"] =
      .error e0) :=
  ⟨(C10_merge_error_policy (fun _ => .error "boom") "feat" "main").2.1 "boom" rfl,
   (C10_merge_error_policy (fun _ => .error "boom") "feat" "main").2.2.1 "boom" rfl,
   (C10_merge_error_policy (fun _ => .error "boom") "feat" "main").2.2.2
     "Failed to check if branch feat is merged: boom" (by rfl)⟩

/-- C1: every path accepted by the validator extends (component-wise) the
canonicalized project root, and a name whose canonical joined path escapes
the canonical project root is rejected. -/
theorem C1_path_containment (fs : FileSys) (name : String) (root : RPath) :
    (∀ p, get_worktree_path fs name root = .ok p →
      List.isPrefixOf ((fs.canonicalize root).getD root) p = true) ∧
    (∀ cj, fs.canonicalize (root ++ nameComponents name) = some cj →
      List.isPrefixOf ((fs.canonicalize root).getD root) cj = false →
      ∃ e, get_worktree_path fs name root = .error e) := by
  constructor
  · intro p hp
    unfold get_worktree_path at hp
    split at hp
    · exact absurd hp (by simp)
    · split at hp
      · exact absurd hp (by simp)
      · dsimp only at hp
        split at hp
        · rename_i hpref
          rw [Except.ok.injEq] at hp
          rw [← hp]
          exact hpref
        · exact absurd hp (by simp)
  · intro cj hcj hnp
    unfold get_worktree_path
    split
    · exact ⟨_, rfl⟩
    · split
      · exact ⟨_, rfl⟩
      · dsimp only
        rw [hcj]
        dsimp only
        rw [if_neg (by simp [hnp])]
        exact ⟨_, rfl⟩

/-- Witness for C1: an accepted name under a canonicalization that always
fails, and a rejected name under a canonicalization that resolves the
joined path outside the root. -/
theorem C1_path_containment_witness :
    List.isPrefixOf (["r"] : RPath) ["r", "a"] = true ∧
    (∃ e, get_worktree_path ⟨fun p => if p = ["r"] then some ["r"] else some ["z"]⟩
      "a" ["r"] = .error e) :=
  ⟨(C1_path_containment ⟨fun _ => none⟩ "a" ["r"]).1 ["r", "a"] (by rfl),
   (C1_path_containment ⟨fun p => if p = ["r"] then some ["r"] else some ["z"]⟩
      "a" ["r"]).2 ["z"] (by rfl) (by rfl)⟩

/-- C2: a name containing `".."`, or absolute, or containing a reserved
character is rejected, and the rejection is independent of the filesystem
(the checks precede the join/canonicalize step). -/
theorem C2_early_rejection (fs fs2 : FileSys) (name : String) (root : RPath)
    (h : strContains name ".." = true ∨ nameIsAbsolute name = true ∨
      hasProhibitedChar name = true) :
    (∃ e, get_worktree_path fs name root = .error e) ∧
    get_worktree_path fs name root = get_worktree_path fs2 name root := by
  unfold get_worktree_path
  rcases h with h | h | h
  · simp only [if_pos (Or.inl (h : strContains name ".." = true) :
      strContains name ".." = true ∨ nameIsAbsolute name = true)]
    exact ⟨⟨_, rfl⟩, trivial⟩
  · simp only [if_pos (Or.inr (h : nameIsAbsolute name = true) :
      strContains name ".." = true ∨ nameIsAbsolute name = true)]
    exact ⟨⟨_, rfl⟩, trivial⟩
  · by_cases h1 : strContains name ".." = true ∨ nameIsAbsolute name = true
    · simp only [if_pos h1]
      exact ⟨⟨_, rfl⟩, trivial⟩
    · simp only [if_neg h1, if_pos h]
      exact ⟨⟨_, rfl⟩, trivial⟩

/-- Witness for C2 at the traversal name `"../x"`. -/
theorem C2_early_rejection_witness :
    (∃ e, get_worktree_path ⟨fun _ => none⟩ "../x" ["r"] = .error e) ∧
    get_worktree_path ⟨fun _ => none⟩ "../x" ["r"] =
      get_worktree_path ⟨fun _ => some ["z"]⟩ "../x" ["r"] :=
  C2_early_rejection ⟨fun _ => none⟩ ⟨fun _ => some ["z"]⟩ "../x" ["r"]
    (Or.inl (by rfl))

/-- C4: prune candidates never include the main worktree, a locked
worktree, a detached-HEAD worktree, or (when a base branch is compared)
the base branch's own worktree, and they form a sublist of the input
listing (same order, no re-sorting). -/
theorem C4_prune_exclusions (run : List String → Except String String)
    (base_branch : String) (age : Option Nat) (now : Int)
    (wts : List Worktree) :
    (∀ wt ∈ prune_candidates run base_branch age now wts,
      wt.is_main = false ∧ wt.is_locked = false ∧ wt.branch ≠ DETACHED_HEAD ∧
        (base_branch ≠ "" → wt.branch ≠ base_branch)) ∧
    (prune_candidates run base_branch age now wts).Sublist wts := by
  constructor
  · intro wt hwt
    obtain ⟨hmem, hkeep⟩ := List.mem_filter.mp hwt
    unfold pruneKeep at hkeep
    by_cases h1 : wt.is_main = true ∨ wt.is_locked = true ∨ wt.branch = DETACHED_HEAD
    · rw [if_pos h1] at hkeep
      exact absurd hkeep (by simp)
    · rw [if_neg h1] at hkeep
      push_neg at h1
      obtain ⟨hm, hl, hd⟩ := h1
      by_cases h2 : base_branch ≠ "" ∧ wt.branch = base_branch
      · rw [if_pos h2] at hkeep
        exact absurd hkeep (by simp)
      · refine ⟨by simpa using hm, by simpa using hl, hd, fun hb hbe => h2 ⟨hb, hbe⟩⟩
  · exact List.filter_sublist _

/-- Witness for C4 in age mode with one old, unlocked, non-main worktree. -/
theorem C4_prune_exclusions_witness :
    ((⟨"/p/f", "f", "h", 50, false, false, false, false⟩ : Worktree).is_main = false ∧
      (⟨"/p/f", "f", "h", 50, false, false, false, false⟩ : Worktree).is_locked = false ∧
      (⟨"/p/f", "f", "h", 50, false, false, false, false⟩ : Worktree).branch ≠ DETACHED_HEAD ∧
      (("" : String) ≠ "" →
        (⟨"/p/f", "f", "h", 50, false, false, false, false⟩ : Worktree).branch ≠ "")) ∧
    (prune_candidates (fun _ => .error "") "" (some 10) 100
      [⟨"/p/f", "f", "h", 50, false, false, false, false⟩]).Sublist
      [⟨"/p/f", "f", "h", 50, false, false, false, false⟩] :=
  ⟨(C4_prune_exclusions (fun _ => .error "") "" (some 10) 100
      [⟨"/p/f", "f", "h", 50, false, false, false, false⟩]).1
      ⟨"/p/f", "f", "h", 50, false, false, false, false⟩ (by decide),
   (C4_prune_exclusions (fun _ => .error "") "" (some 10) 100
      [⟨"/p/f", "f", "h", 50, false, false, false, false⟩]).2⟩

/-- A record emitted by `flushPartial` is never flagged bare. -/
theorem mem_flushPartial_not_bare (current p : PartialWorktree)
    (hp : p ∈ flushPartial current) : p.is_bare = false := by
  unfold flushPartial at hp
  split at hp
  · rename_i hcond
    rw [List.mem_singleton] at hp
    subst hp
    simpa using hcond.2
  · exact absurd hp (by simp)

/-- No record emitted by the parser loop is flagged bare, from any
accumulator state. -/
theorem parseLoop_no_bare :
    ∀ (lines : List String) (current : PartialWorktree),
      ∀ p ∈ parseLoop lines current, p.is_bare = false := by
  intro lines
  induction lines with
  | nil =>
    intro current p hp
    exact mem_flushPartial_not_bare current p hp
  | cons line rest ih =>
    intro current p hp
    unfold parseLoop at hp
    split at hp
    · rcases List.mem_append.mp hp with h | h
      · exact mem_flushPartial_not_bare _ _ h
      · exact ih _ _ h
    · repeat' split at hp
      all_goals exact ih _ _ hp

/-- C5: the porcelain parser never emits a record for a block containing a
`bare` line — every returned record has `is_bare = false`. -/
theorem C5_no_bare_records (output : String) (p : PartialWorktree)
    (hp : p ∈ parse_worktree_lines output) : p.is_bare = false :=
  parseLoop_no_bare _ _ p hp

/-- Witness for C5 on a one-block listing. -/
theorem C5_no_bare_records_witness :
    (⟨some "/a", none, none, false, false, false⟩ : PartialWorktree) ∈
      parse_worktree_lines "worktree /a" ∧
    (⟨some "/a", none, none, false, false, false⟩ : PartialWorktree).is_bare = false :=
  ⟨by decide, C5_no_bare_records "worktree /a" _ (by decide)⟩

/-- `firstOccur` finds the least occurrence: if `pat` is a prefix of the
suffix at `j` and of no earlier suffix, the scan returns `j`. -/
theorem firstOccur_eq_of_least (pat : List Char) :
    ∀ (s : List Char) (j : Nat), pat.isPrefixOf (s.drop j) = true →
      (∀ i, i < j → pat.isPrefixOf (s.drop i) = false) →
      firstOccur pat s = some j := by
  intro s
  induction s with
  | nil =>
    intro j hj hlt
    cases j with
    | zero =>
      rw [List.drop_zero] at hj
      unfold firstOccur
      rw [if_pos hj]
    | succ j' =>
      have h0 : pat.isPrefixOf (([] : List Char).drop 0) = false := hlt 0 (Nat.succ_pos j')
      rw [List.drop_nil] at h0
      rw [List.drop_nil] at hj
      rw [hj] at h0
      exact absurd h0 (by simp)
  | cons c cs ih =>
    intro j hj hlt
    cases j with
    | zero =>
      rw [List.drop_zero] at hj
      unfold firstOccur
      rw [if_pos hj]
    | succ j' =>
      have h0 : pat.isPrefixOf ((c :: cs).drop 0) = false := hlt 0 (Nat.succ_pos j')
      unfold firstOccur
      rw [if_neg (by simp_all), ih j' hj (fun i hi => hlt (i + 1) (Nat.succ_lt_succ hi))]
      rfl

/-- C6: a gitdir of the form `<bare>.git/worktrees/<name>` — with the
pattern's first occurrence at the end of `<bare>` — is cut at that first
occurrence, returning the bare-clone path `<bare>.git`, however deeply
nested `<name>` is and even if a later segment is literally named
`worktrees`. -/
theorem C6_gitdir_first_cut (bare name : String)
    (hleast : ∀ i, i < bare.data.length →
      ".git/worktrees/".data.isPrefixOf
        ((bare.data ++ ".git/worktrees/".data ++ name.data).drop i) = false) :
    extract_bare_clone_from_gitdir (bare ++ ".git/worktrees/" ++ name) =
      .ok (bare ++ ".git") := by
  have hdata : (bare ++ ".git/worktrees/" ++ name).data
      = bare.data ++ ".git/worktrees/".data ++ name.data := by
    rw [String.data_append, String.data_append]
  have hocc : ".git/worktrees/".data.isPrefixOf
      ((bare.data ++ ".git/worktrees/".data ++ name.data).drop bare.data.length) = true := by
    rw [List.append_assoc, List.drop_left, List.isPrefixOf_iff_prefix]
    exact List.prefix_append _ _
  have hfo : firstOccur ".git/worktrees/".data (bare ++ ".git/worktrees/" ++ name).data
      = some bare.data.length := by
    rw [hdata]
    exact firstOccur_eq_of_least _ _ _ hocc hleast
  unfold extract_bare_clone_from_gitdir
  rw [hfo]
  dsimp only
  congr 1
  unfold strTake
  rw [hdata, List.append_assoc, List.take_append]
  have h4 : (".git/worktrees/".data ++ name.data).take 4 = ".git".data := by
    simp [List.take_append_eq_append_take]
  rw [h4]
  rfl

/-- Witness for C6 at `"/p/repo.git/worktrees/feature/x"` (a nested branch
name below `worktrees/`). -/
theorem C6_gitdir_first_cut_witness :
    extract_bare_clone_from_gitdir "/p/repo.git/worktrees/feature/x" =
      .ok "/p/repo.git" :=
  C6_gitdir_first_cut "/p/repo" "feature/x" (by decide)

/-- C9 counterexample: on the porcelain block
`worktree /w`, `branch refs/heads/a/refs/heads/b`, the parser records the
branch `"a/b"` — a later occurrence of `refs/heads/` is removed too — and
not `"a/refs/heads/b"`, which stripping only the literal prefix would
produce. -/
theorem C9_branch_strip_counterexample :
    (parse_worktree_lines "worktree /w\nbranch refs/heads/a/refs/heads/b").map
        PartialWorktree.branch = [some "a/b"] ∧
    (parse_worktree_lines "worktree /w\nbranch refs/heads/a/refs/heads/b").map
        PartialWorktree.branch ≠ [some "a/refs/heads/b"] := by
  constructor
  · decide
  · decide

/-- C9 (amended): a `branch <ref>` porcelain line sets the record's branch
to `<ref>` with every occurrence of the substring `refs/heads/` removed
(Rust `String::replace` semantics), not only a leading prefix. -/
theorem C9_branch_replace_all (ref : String) (rest : List String)
    (current : PartialWorktree) :
    parseLoop (("branch " ++ ref) :: rest) current =
      parseLoop rest
        { current with branch := some (strReplace ref "refs/heads/" "") } := by
  have h1 : ¬(strStartsWith ("branch " ++ ref) "worktree " = true) := by
    simp [strStartsWith, String.data_append, List.isPrefixOf]
  have h2 : ¬(strStartsWith ("branch " ++ ref) "HEAD " = true) := by
    simp [strStartsWith, String.data_append, List.isPrefixOf]
  have h3 : strStartsWith ("branch " ++ ref) "branch " = true := by
    simp [strStartsWith, String.data_append, List.isPrefixOf]
  conv_lhs => rw [parseLoop]
  rw [if_neg h1, if_neg h2, if_pos h3,
    show strDrop ("branch " ++ ref) 7 = ref from rfl]

end Grove
